import Mathlib

/-!
Shallow embedding of the navigation core of the live-preview extension:
the per-panel page history, the controller-side webview communication
(`src/src/editorPreview/webviewComm.ts`), and the display-surface script
(`src/media/main.js`).

`pageHistoryTracker.ts`, `pathUtil.ts` and `utils.ts` are referenced by
`webviewComm.ts` but are not part of the provided sources; the pieces of
them that the claims need are modelled from the specification and marked
as such in their doc comments.
-/

namespace LivePreview

/-- `NavEditCommands` from `pageHistoryTracker.ts` (imported by
`webviewComm.ts`): an enable/disable instruction for a navigation button. -/
inductive NavEditCommands where
  | DISABLE_BACK
  | ENABLE_BACK
  | DISABLE_FORWARD
  | ENABLE_FORWARD
deriving DecidableEq, Repr

/-- Modelled from the spec: the `PageHistory` (HistoryStack) state from
`pageHistoryTracker.ts`, which is not among the provided sources.
`entries` is the ordered sequence of visited addresses, `cursor` the index
of the currently displayed entry (spec section 3). -/
structure PageHistory where
  entries : List String
  cursor : Nat
deriving DecidableEq, Repr

/-- A fresh history, as created by `new PageHistory()` in the
`WebviewComm` constructor: no entries yet. -/
def emptyHistory : PageHistory := { entries := [], cursor := 0 }

/-- The entry the cursor currently points at, if any. -/
def currentEntry (h : PageHistory) : Option String :=
  h.entries.get? h.cursor

/-- Whether the back direction is available: the cursor is not at index 0. -/
def canGoBack (h : PageHistory) : Bool :=
  decide (0 < h.cursor)

/-- Whether the forward direction is available: the cursor is not at the
tail of the entry list. -/
def canGoForward (h : PageHistory) : Bool :=
  decide (h.cursor + 1 < h.entries.length)

/-- Modelled from the spec: the explicit before/after comparison that
decides which `NavEditCommands` a history mutation emits (spec sections 3
and 9): at most one ENABLE/DISABLE per direction, and only on a genuine
transition of that direction's availability. -/
def actionDiff (before after : PageHistory) : List NavEditCommands :=
  (if canGoBack after && !(canGoBack before) then [NavEditCommands.ENABLE_BACK] else []) ++
  (if !(canGoBack after) && canGoBack before then [NavEditCommands.DISABLE_BACK] else []) ++
  (if canGoForward after && !(canGoForward before) then [NavEditCommands.ENABLE_FORWARD] else []) ++
  (if !(canGoForward after) && canGoForward before then [NavEditCommands.DISABLE_FORWARD] else [])

/-- Modelled from the spec: `currentActions()` (`currentCommands` at the
call site in `webviewComm.ts`): the full current enable/disable state for
both directions, used to initialize the button state. -/
def currentCommands (h : PageHistory) : List NavEditCommands :=
  (if canGoBack h then [NavEditCommands.ENABLE_BACK] else [NavEditCommands.DISABLE_BACK]) ++
  (if canGoForward h then [NavEditCommands.ENABLE_FORWARD] else [NavEditCommands.DISABLE_FORWARD])

/-- The response of a backward/forward history move: the address to show
(absent at a history boundary) and the button-state transitions. -/
structure NavResponse where
  address : Option String
  actions : List NavEditCommands
deriving DecidableEq, Repr

/-- Modelled from the spec: `recordNavigation` / `addHistory` from
`pageHistoryTracker.ts`. Appends `address` as the new tail after
discarding every entry beyond the cursor and moves the cursor to the tail.
A repeated identical navigation (the address already is the current entry)
changes nothing and emits nothing — the caller in `webviewComm.ts` guards
`if (response)`, so the no-change case is modelled as `none`. -/
def addHistory (h : PageHistory) (address : String) :
    Option (List NavEditCommands) × PageHistory :=
  if currentEntry h = some address then
    (none, h)
  else
    let kept := h.entries.take (h.cursor + 1)
    let h2 : PageHistory := { entries := kept ++ [address], cursor := kept.length }
    (some (actionDiff h h2), h2)

/-- Modelled from the spec: `goBackward` from `pageHistoryTracker.ts`.
No-op returning no address when the cursor is at 0; otherwise decrements
the cursor and returns the entry at the new cursor plus the resulting
transitions. -/
def goBackward (h : PageHistory) : NavResponse × PageHistory :=
  if 0 < h.cursor then
    let h2 : PageHistory := { h with cursor := h.cursor - 1 }
    ({ address := h2.entries.get? h2.cursor, actions := actionDiff h h2 }, h2)
  else
    ({ address := none, actions := [] }, h)

/-- Modelled from the spec: `goForward` from `pageHistoryTracker.ts`.
No-op returning no address when the cursor is at the tail (in particular
on an empty history); otherwise increments the cursor and returns the
entry at the new cursor plus the resulting transitions. -/
def goForward (h : PageHistory) : NavResponse × PageHistory :=
  if h.cursor + 1 < h.entries.length then
    let h2 : PageHistory := { h with cursor := h.cursor + 1 }
    ({ address := h2.entries.get? h2.cursor, actions := actionDiff h h2 }, h2)
  else
    ({ address := none, actions := [] }, h)

/-! ## Protocol messages (`webviewComm.ts` senders, `main.js` receivers) -/

/-- The payload of a posted message. The TypeScript side ships payloads as
`JSON.stringify`-ed strings which `main.js` parses back; the embedding
keeps them structured. -/
inductive MsgText where
  | empty
  | str (s : String)
  | urlPair (fullPath : String) (pathname : String)
  | buttonState (element : String) (disabled : Bool)
deriving DecidableEq, Repr

/-- A message posted between the controller and the display surface:
a `command` string plus a payload. -/
structure PostedMessage where
  command : String
  text : MsgText
deriving DecidableEq, Repr

/-- `handleNavAction` (`webviewComm.ts` lines 249-270): turns a
`NavEditCommands` into the posted `changed-history` message naming the
affected button element and its new `disabled` value. -/
def handleNavAction (command : NavEditCommands) : PostedMessage :=
  let text := match command with
    | NavEditCommands.DISABLE_BACK => MsgText.buttonState "back" true
    | NavEditCommands.ENABLE_BACK => MsgText.buttonState "back" false
    | NavEditCommands.DISABLE_FORWARD => MsgText.buttonState "forward" true
    | NavEditCommands.ENABLE_FORWARD => MsgText.buttonState "forward" false
  { command := "changed-history", text := text }

/-! ## Controller side: `WebviewComm` (`webviewComm.ts`) -/

/-- The payload of the `_onPanelTitleChange` event fired by
`WebviewComm`. -/
structure TitleEvent where
  title : String
  pathname : String
deriving DecidableEq, Repr

/-- The mutable state of a `WebviewComm` instance: its `PageHistory` and
its `currentAddress` field. -/
structure WebviewComm where
  pageHistory : PageHistory
  currentAddress : String
deriving DecidableEq, Repr

/-- A call of `goToFile` (url extension plus the `updateHistory` flag),
recorded so that theorems can talk about which navigations happened. -/
structure NavCall where
  url : String
  updateHistory : Bool
deriving DecidableEq, Repr

/-- The observable outcome of running a `WebviewComm` operation: the new
state, the messages posted to the webview (in order), the panel-title
events fired, the full URLs rendered into the webview HTML, and the
`goToFile` calls made. -/
structure CommOutput where
  comm : WebviewComm
  posted : List PostedMessage
  titles : List TitleEvent
  rendered : List String
  navCalls : List NavCall
deriving DecidableEq, Repr

/-- The result of resolving the serving host: the HTTP URI as a string
(what `httpHost.toString()` yields), the WebSocket authority and the
HTTP scheme-plus-authority. `setHtml` takes an `Option` of it: `none`
models a rejected host resolution. -/
structure ResolvedHost where
  httpUriString : String
  wsAuthority : String
  httpSchemeAuthority : String
deriving DecidableEq, Repr

/-- Modelled from the spec: `PathUtil.ConvertToUnixPath` from
`src/utils/pathUtil.ts`, which is not among the provided sources; it
converts an OS path to a unix path by replacing every backslash
separator with a forward slash. -/
def ConvertToUnixPath (p : String) : String :=
  String.mk (p.data.map (fun c => if c = '\\' then '/' else c))

/-- `constructAddress` (`webviewComm.ts` lines 57-71), parametrized over
the unix-path conversion (external to the provided sources). Drops one
leading slash when present (`URLExt.length > 0 && URLExt[0] == '/'`,
modelled as the head character being a slash), converts to a unix path,
drops one more leading slash when present (`startsWith('/')`), and
appends the result to the host URI string. -/
def constructAddress (convert : String → String) (URLExt : String)
    (hostURI : String) : String :=
  let u1 := if URLExt.data.head? = some '/' then String.mk (URLExt.data.drop 1) else URLExt
  let u2 := convert u1
  let u3 := if u2.data.head? = some '/' then String.mk (u2.data.drop 1) else u2
  hostURI ++ u3

/-- `handleNewPageLoad`'s leading normalization (`webviewComm.ts` lines
278-281): a nonempty pathname that does not start with `/` gets one
prepended; everything else is left as is. -/
def normalizePath (pathname : String) : String :=
  if pathname.data.head? ≠ some '/' && pathname.length > 0 then "/" ++ pathname
  else pathname

/-- `handleNewPageLoad` (`webviewComm.ts` lines 277-291): normalizes the
pathname, fires the panel-title-change event, sets `currentAddress`,
feeds the pathname into the history and posts one `changed-history`
message per returned action (none when `addHistory` returned no
response). -/
def handleNewPageLoad (c : WebviewComm) (pathname : String)
    (panelTitle : String) : CommOutput :=
  let p := normalizePath pathname
  let c1 : WebviewComm := { c with currentAddress := p }
  match addHistory c1.pageHistory p with
  | (some actions, h2) =>
    { comm := { c1 with pageHistory := h2 },
      posted := actions.map handleNavAction,
      titles := [{ title := panelTitle, pathname := p }],
      rendered := [], navCalls := [] }
  | (none, h2) =>
    { comm := { c1 with pageHistory := h2 },
      posted := [],
      titles := [{ title := panelTitle, pathname := p }],
      rendered := [], navCalls := [] }

/-- `setHtml` (`webviewComm.ts` lines 89-116), parametrized over the
`isFileInjectable` predicate (external to the provided sources) and the
outcome of host resolution (`none` models a rejected
`resolveHost`/`resolveWsHost`, in which case nothing after the `await`
runs and an error propagates). On success it renders the constructed
URL, posts `set-url` and fires a title event for non-injectable targets,
and — only when `updateHistory` — runs `handleNewPageLoad`. -/
def setHtml (injectable : String → Bool) (c : WebviewComm)
    (host : Option ResolvedHost) (URLExt : String) (updateHistory : Bool) :
    Except Unit CommOutput :=
  match host with
  | none => Except.error ()
  | some h =>
    let url := constructAddress ConvertToUnixPath URLExt h.httpUriString
    let preTitles := if injectable URLExt then [] else
      [{ title := "", pathname := URLExt : TitleEvent }]
    let prePosts := if injectable URLExt then [] else
      [{ command := "set-url", text := MsgText.urlPair url URLExt : PostedMessage }]
    if updateHistory then
      let rest := handleNewPageLoad c URLExt ""
      Except.ok { comm := rest.comm,
                  posted := prePosts ++ rest.posted,
                  titles := preTitles ++ rest.titles,
                  rendered := [url], navCalls := [] }
    else
      Except.ok { comm := c, posted := prePosts, titles := preTitles,
                  rendered := [url], navCalls := [] }

/-- `goToFile` (`webviewComm.ts` lines 78-81): sets the webview HTML via
`setHtml` and assigns `currentAddress` to the raw pathname. The
TypeScript method does not await `setHtml`, so `currentAddress` is
assigned before `setHtml`'s continuation runs (and possibly overwrites it
via `handleNewPageLoad`); on a failed host resolution the rejected
promise is unhandled and only the `currentAddress` assignment takes
effect. -/
def goToFile (injectable : String → Bool) (c : WebviewComm)
    (host : Option ResolvedHost) (URLExt : String) (updateHistory : Bool) :
    CommOutput :=
  let c1 : WebviewComm := { c with currentAddress := URLExt }
  match setHtml injectable c1 host URLExt updateHistory with
  | Except.ok out => { out with navCalls := { url := URLExt, updateHistory := updateHistory } :: out.navCalls }
  | Except.error _ =>
    { comm := c1, posted := [], titles := [], rendered := [],
      navCalls := [{ url := URLExt, updateHistory := updateHistory }] }

/-- `updateForwardBackArrows` (`webviewComm.ts` lines 296-301): posts one
`changed-history` message per command of the history's current full
button state. -/
def updateForwardBackArrows (h : PageHistory) : List PostedMessage :=
  (currentCommands h).map handleNavAction

/-- `goForwards` (`webviewComm.ts` lines 306-317): asks the history to go
forward, navigates via `goToFile(pagename, false)` exactly when the
returned address is defined, then relays every returned action. -/
def goForwards (injectable : String → Bool) (c : WebviewComm)
    (host : Option ResolvedHost) : CommOutput :=
  let r := goForward c.pageHistory
  let c1 : WebviewComm := { c with pageHistory := r.2 }
  let g : CommOutput :=
    match r.1.address with
    | some pagename => goToFile injectable c1 host pagename false
    | none => { comm := c1, posted := [], titles := [], rendered := [], navCalls := [] }
  { g with posted := g.posted ++ r.1.actions.map handleNavAction }

/-- `goBack` (`webviewComm.ts` lines 322-333): asks the history to go
backward, navigates via `goToFile(pagename, false)` exactly when the
returned address is defined, then relays every returned action. -/
def goBack (injectable : String → Bool) (c : WebviewComm)
    (host : Option ResolvedHost) : CommOutput :=
  let r := goBackward c.pageHistory
  let c1 : WebviewComm := { c with pageHistory := r.2 }
  let g : CommOutput :=
    match r.1.address with
    | some pagename => goToFile injectable c1 host pagename false
    | none => { comm := c1, posted := [], titles := [], rendered := [], navCalls := [] }
  { g with posted := g.posted ++ r.1.actions.map handleNavAction }

/-- The `WebviewComm` constructor (`webviewComm.ts` lines 21-36): creates
an empty history, pushes the current button state via
`updateForwardBackArrows`, navigates to the initial file without
updating history, records the initial file into the history (discarding
the response), and sets `currentAddress` to the initial file. -/
def constructWebviewComm (injectable : String → Bool) (initialFile : String)
    (host : Option ResolvedHost) : CommOutput :=
  let h0 := emptyHistory
  let initPosts := updateForwardBackArrows h0
  let c0 : WebviewComm := { pageHistory := h0, currentAddress := "" }
  let g := goToFile injectable c0 host initialFile false
  let h1 := (addHistory g.comm.pageHistory initialFile).2
  { comm := { pageHistory := h1, currentAddress := initialFile },
    posted := initPosts ++ g.posted,
    titles := g.titles, rendered := g.rendered, navCalls := g.navCalls }

/-! ## Display surface: `main.js` -/

/-- The display surface's DOM/webview state observable through `main.js`:
the `disabled` properties of the back and forward buttons, the URL input
value, and the address saved via `vscode.setState`. Both buttons start
enabled (`disabled = false`) in the markup produced by
`getHtmlForWebview`. -/
structure DisplayState where
  backDisabled : Bool
  forwardDisabled : Bool
  urlInputValue : String
  savedAddress : String
deriving DecidableEq, Repr

/-- A message sent over the WebSocket connection by `main.js`
(`connection.send`). -/
structure SocketMsg where
  command : String
  url : String
deriving DecidableEq, Repr

/-- The effects of one step of the display surface's window message
listener: the new DOM state, the messages posted back to the controller
(`vscode.postMessage`), the messages sent over the socket
(`connection.send`), and the strings posted into the nested frame. -/
structure DisplayResult where
  state : DisplayState
  toController : List PostedMessage
  toSocket : List SocketMsg
  toFrame : List String
deriving DecidableEq, Repr

/-- A `DisplayResult` that leaves the state unchanged and sends nothing. -/
def displayNoop (st : DisplayState) : DisplayResult :=
  { state := st, toController := [], toSocket := [], toFrame := [] }

/-- The display surface's window message listener (`main.js` lines
74-130). The switch has cases for `refresh`, `enable-back`,
`disable-back`, `enable-forward`, `disable-forward`, `update-path`,
`set-url`, `open-external-link` and `perform-url-check`; any other
command (in particular `changed-history`) falls through the switch and
has no effect. -/
def onWindowMessage (st : DisplayState) (msg : PostedMessage) : DisplayResult :=
  if msg.command = "refresh" then
    { displayNoop st with toFrame := ["refresh"] }
  else if msg.command = "enable-back" then
    displayNoop { st with backDisabled := false }
  else if msg.command = "disable-back" then
    displayNoop { st with backDisabled := true }
  else if msg.command = "enable-forward" then
    displayNoop { st with forwardDisabled := false }
  else if msg.command = "disable-forward" then
    displayNoop { st with forwardDisabled := true }
  else if msg.command = "update-path" then
    match msg.text with
    | MsgText.urlPair fullPath pathname =>
      { state := { st with urlInputValue := fullPath, savedAddress := pathname },
        toController := [{ command := "update-path", text := msg.text }],
        toSocket := [], toFrame := [] }
    | _ => displayNoop st
  else if msg.command = "set-url" then
    match msg.text with
    | MsgText.urlPair fullPath pathname =>
      displayNoop { st with urlInputValue := fullPath, savedAddress := pathname }
    | _ => displayNoop st
  else if msg.command = "open-external-link" then
    { displayNoop st with toController := [{ command := "open-browser", text := msg.text }] }
  else if msg.command = "perform-url-check" then
    match msg.text with
    | MsgText.str u =>
      { displayNoop st with toSocket := [{ command := "urlCheck", url := u }] }
    | _ => displayNoop st
  else
    displayNoop st

/-- Run the display surface's listener over a sequence of incoming
messages, collecting the socket sends in order. -/
def runDisplay : DisplayState → List PostedMessage → DisplayState × List SocketMsg
  | st, [] => (st, [])
  | st, m :: rest =>
    let r := onWindowMessage st m
    let (st2, sent2) := runDisplay r.state rest
    (st2, r.toSocket ++ sent2)

/-! ## Operation sequences on the history (for the invariant claims) -/

/-- One operation on a `PageHistory`: record a navigation, go backward,
or go forward. -/
inductive HistoryOp where
  | record (address : String)
  | back
  | forward
deriving DecidableEq, Repr

/-- Apply one operation to a history, keeping only the resulting state. -/
def applyOp (h : PageHistory) : HistoryOp → PageHistory
  | HistoryOp.record a => (addHistory h a).2
  | HistoryOp.back => (goBackward h).2
  | HistoryOp.forward => (goForward h).2

/-- Apply a sequence of operations to a history. -/
def runOps (h : PageHistory) (ops : List HistoryOp) : PageHistory :=
  ops.foldl applyOp h

/-- The per-request socket output of the display surface: a
`perform-url-check` request with a string payload yields exactly one
`urlCheck` send; everything else yields none. This is the claim-side
description of the socket traffic, to be compared with the embedded
listener. -/
def urlCheckSends (m : PostedMessage) : List SocketMsg :=
  if m.command = "perform-url-check" then
    match m.text with
    | MsgText.str u => [{ command := "urlCheck", url := u }]
    | _ => []
  else []

/-- The claim-side description of `constructAddress`'s path handling:
remove at most one leading `/` from a string. -/
def removeUpToOneLeadingSlash (s : String) : String :=
  if s.data.head? = some '/' then String.mk (s.data.drop 1) else s

/-! ## Helper lemmas -/

/-- The socket output of one listener step depends only on the incoming
message: it is exactly the per-request `urlCheckSends`. -/
theorem onWindowMessage_toSocket (st : DisplayState) (m : PostedMessage) :
    (onWindowMessage st m).toSocket = urlCheckSends m := by
  rcases m with ⟨cmd, text⟩
  unfold onWindowMessage urlCheckSends displayNoop
  dsimp only
  split_ifs with h1 h2 h3 h4 h5 h6 h7 h8 h9 <;>
    first
      | rfl
      | (cases text <;> rfl)
      | (exact absurd (by assumption : cmd = "perform-url-check")
          (fun hc => by simp_all))

/-- Counting the `urlCheck` sends for address `a` in one request's socket
output. -/
theorem urlCheckSends_count (m : PostedMessage) (a : String) :
    ((urlCheckSends m).filter (fun s => decide (s.command = "urlCheck" ∧ s.url = a))).length =
      (if m.command = "perform-url-check" ∧ m.text = MsgText.str a then 1 else 0) := by
  rcases m with ⟨cmd, text⟩
  unfold urlCheckSends
  dsimp only
  by_cases h : cmd = "perform-url-check"
  · subst h
    cases text with
    | str u => by_cases hu : u = a <;> simp [hu, List.filter_cons]
    | empty => simp
    | urlPair x y => simp
    | buttonState x y => simp
  · simp [h]

/-- One history operation preserves the cursor invariant and
non-emptiness. -/
theorem applyOp_preserves (h : PageHistory) (op : HistoryOp)
    (hinv : h.entries ≠ [] → h.cursor < h.entries.length) :
    ((applyOp h op).entries ≠ [] → (applyOp h op).cursor < (applyOp h op).entries.length) ∧
    (h.entries ≠ [] → (applyOp h op).entries ≠ []) := by
  cases op with
  | record a =>
    unfold applyOp addHistory
    dsimp only
    split_ifs with hc
    · exact ⟨hinv, fun hne => hne⟩
    · refine ⟨fun _ => ?_, fun _ => ?_⟩
      · simp
      · simp
  | back =>
    unfold applyOp goBackward
    dsimp only
    split_ifs with hc
    · refine ⟨fun hne => ?_, fun hne => hne⟩
      dsimp only at hne ⊢
      have := hinv hne
      omega
    · exact ⟨hinv, fun hne => hne⟩
  | forward =>
    unfold applyOp goForward
    dsimp only
    split_ifs with hc
    · exact ⟨fun _ => hc, fun hne => hne⟩
    · exact ⟨hinv, fun hne => hne⟩

/-- Recording any address always leaves the entry list non-empty. -/
theorem record_nonempty (h : PageHistory) (a : String) :
    (applyOp h (HistoryOp.record a)).entries ≠ [] := by
  unfold applyOp addHistory
  dsimp only
  split_ifs with hc
  · intro hnil
    unfold currentEntry at hc
    rw [hnil] at hc
    simp at hc
  · simp

/-- Going backward then forward from a freshly appended tail restores the
state and re-yields the tail entry. -/
theorem roundtrip_core (E : List String) (X : String) (hE : 0 < E.length) :
    currentEntry { entries := E ++ [X], cursor := E.length } = some X ∧
    (goForward (goBackward { entries := E ++ [X], cursor := E.length : PageHistory }).2).2 =
      { entries := E ++ [X], cursor := E.length } ∧
    (goForward (goBackward { entries := E ++ [X], cursor := E.length : PageHistory }).2).1.address =
      some X := by
  have h1 : E.length - 1 + 1 = E.length := Nat.succ_pred_eq_of_pos hE
  have hlt : E.length - 1 + 1 < (E ++ [X]).length := by
    simp [List.length_append]
    omega
  unfold goBackward
  dsimp only
  rw [if_pos hE]
  dsimp only
  unfold goForward
  dsimp only
  rw [if_pos hlt]
  dsimp only
  refine ⟨?_, ?_, ?_⟩
  · unfold currentEntry
    exact List.get?_concat_length E X
  · rw [PageHistory.mk.injEq]
    exact ⟨rfl, h1⟩
  · rw [h1]
    exact List.get?_concat_length E X

/-- Every message produced by `handleNavAction` carries the
`changed-history` command. -/
theorem handleNavAction_command (c : NavEditCommands) :
    (handleNavAction c).command = "changed-history" := by
  cases c <;> rfl

/-- A history-replay navigation (`updateHistory = false`) leaves the page
history untouched. -/
theorem goToFile_false_pageHistory (injectable : String → Bool) (c : WebviewComm)
    (host : Option ResolvedHost) (URLExt : String) :
    (goToFile injectable c host URLExt false).comm.pageHistory = c.pageHistory := by
  unfold goToFile setHtml
  cases host <;> rfl

/-- A history-replay navigation posts no `changed-history` message. -/
theorem goToFile_false_no_changed (injectable : String → Bool) (c : WebviewComm)
    (host : Option ResolvedHost) (URLExt : String) :
    ((goToFile injectable c host URLExt false).posted.filter
      (fun m => m.command == "changed-history")) = [] := by
  unfold goToFile setHtml
  cases host with
  | none => rfl
  | some h =>
    dsimp only
    split_ifs <;> first | rfl | contradiction

/-- `goToFile` records exactly its own navigation call. -/
theorem goToFile_navCalls (injectable : String → Bool) (c : WebviewComm)
    (host : Option ResolvedHost) (u : String) (b : Bool) :
    (goToFile injectable c host u b).navCalls = [{ url := u, updateHistory := b }] := by
  unfold goToFile setHtml
  cases host with
  | none => rfl
  | some hh =>
    dsimp only
    split_ifs <;> rfl

/-- Filtering `changed-history` messages keeps every relayed nav action. -/
theorem filter_changed_map (acts : List NavEditCommands) :
    ((acts.map handleNavAction).filter (fun m => m.command == "changed-history")) =
      acts.map handleNavAction := by
  rw [List.filter_eq_self]
  intro m hm
  rcases List.mem_map.1 hm with ⟨c, _, rfl⟩
  rw [handleNavAction_command]
  rfl

/-- Characterization of the pathname normalization in
`handleNewPageLoad`: the empty string is untouched, a string already
starting with `/` is untouched, and anything else gets exactly one `/`
prepended. -/
theorem normalizePath_spec (s : String) :
    normalizePath s = (if s = "" then s else if s.data.head? = some '/' then s else "/" ++ s) := by
  rcases s with ⟨l⟩
  unfold normalizePath
  cases l with
  | nil => rfl
  | cons ch cs =>
    by_cases hch : ch = '/'
    · subst hch
      simp [String.length]
    · simp [String.length, hch]
      rw [if_neg (fun h => by simpa using congrArg String.data h)]

/-! ## Claim C1 -/

/-- C1, counterexample: the claim says a repeated `perform-url-check`
request for an address that is already pending produces exactly one
outbound `urlCheck` message for that address. On the code, two
back-to-back requests for `/a` produce two `urlCheck` sends: `main.js`
forwards every request to the socket unconditionally. -/
theorem c1_counterexample :
    ((runDisplay { backDisabled := false, forwardDisabled := false, urlInputValue := "", savedAddress := "" }
        [{ command := "perform-url-check", text := MsgText.str "/a" },
         { command := "perform-url-check", text := MsgText.str "/a" }]).2.filter
       (fun s => decide (s.command = "urlCheck" ∧ s.url = "/a"))).length = 2 ∧ (2 : Nat) ≠ 1 := by
  decide

/-- C1, amended: there is no coalescing — every `perform-url-check`
request received by the display surface produces its own outbound
`urlCheck` message, so the number of `urlCheck` sends for an address
equals the number of requests for that address. -/
theorem c1_amended_urlCheck_per_request (st : DisplayState) (msgs : List PostedMessage) (a : String) :
    ((runDisplay st msgs).2.filter
        (fun s => decide (s.command = "urlCheck" ∧ s.url = a))).length =
      (msgs.filter
        (fun m => decide (m.command = "perform-url-check" ∧ m.text = MsgText.str a))).length := by
  induction msgs generalizing st with
  | nil => rfl
  | cons m rest ih =>
    show ((((onWindowMessage st m).toSocket ++ (runDisplay (onWindowMessage st m).state rest).2).filter
        (fun s => decide (s.command = "urlCheck" ∧ s.url = a))).length = _)
    rw [List.filter_append, List.length_append, onWindowMessage_toSocket, ih,
      urlCheckSends_count, List.filter_cons]
    by_cases hm : m.command = "perform-url-check" ∧ m.text = MsgText.str a <;>
      simp [hm, Nat.add_comm]

/-! ## Claim C2 -/

/-- C2: the controller does post the claimed
`{command: "changed-history", text: {element, disabled}}` message for a
relayed NavAction, but the display surface's message listener has no
`changed-history` case (it only matches `enable-back` / `disable-back` /
`enable-forward` / `disable-forward`, which nothing sends), so the
message leaves the display state — in particular the back button's
`disabled` property — completely unchanged, contrary to the claim. -/
theorem c2_changed_history_ignored :
    handleNavAction NavEditCommands.ENABLE_BACK =
      { command := "changed-history", text := MsgText.buttonState "back" false } ∧
    onWindowMessage { backDisabled := true, forwardDisabled := true, urlInputValue := "", savedAddress := "" }
        (handleNavAction NavEditCommands.ENABLE_BACK) =
      displayNoop { backDisabled := true, forwardDisabled := true, urlInputValue := "", savedAddress := "" } :=
  ⟨rfl, by decide⟩

/-! ## Claim C3 -/

/-- C3, counterexample: the claim says an empty address fails with
InvalidAddress before the history is reached and no entry is recorded.
On the code, navigating a fresh panel to the empty address records the
empty string into the history. -/
theorem c3_counterexample :
    (goToFile (fun _ => true) { pageHistory := emptyHistory, currentAddress := "" }
        (some { httpUriString := "http://localhost:3000/", wsAuthority := "localhost:3001",
                httpSchemeAuthority := "http://localhost:3000" })
        "" true).comm.pageHistory.entries = [""] ∧
    ([""] : List String) ≠ [] := by
  decide

/-- C3, amended: an empty or whitespace-only address is not rejected —
no InvalidAddress error exists in the code path — and `handleNewPageLoad`
records its normalized form as the new current history entry (changing
the history) whenever it differs from the current entry, also reporting
it outward through the panel-title-change event. -/
theorem c3_amended_empty_address_recorded (c : WebviewComm) (s : String)
    ( _hws : s.data.all Char.isWhitespace = true)
    (hinv : c.pageHistory.entries = [] ∨ c.pageHistory.cursor < c.pageHistory.entries.length)
    (hne : currentEntry c.pageHistory ≠ some (normalizePath s)) :
    currentEntry (handleNewPageLoad c s "").comm.pageHistory = some (normalizePath s) ∧
    (handleNewPageLoad c s "").comm.pageHistory ≠ c.pageHistory ∧
    (handleNewPageLoad c s "").titles = [{ title := "", pathname := normalizePath s }] := by
  have haddr : addHistory c.pageHistory (normalizePath s) =
      (some (actionDiff c.pageHistory
          { entries := c.pageHistory.entries.take (c.pageHistory.cursor + 1) ++ [normalizePath s],
            cursor := (c.pageHistory.entries.take (c.pageHistory.cursor + 1)).length }),
        { entries := c.pageHistory.entries.take (c.pageHistory.cursor + 1) ++ [normalizePath s],
          cursor := (c.pageHistory.entries.take (c.pageHistory.cursor + 1)).length }) := by
    unfold addHistory
    rw [if_neg hne]
  unfold handleNewPageLoad
  dsimp only
  rw [haddr]
  dsimp only
  refine ⟨List.get?_concat_length _ _, ?_, rfl⟩
  intro heq
  have hcur := congrArg PageHistory.cursor heq
  have hent := congrArg PageHistory.entries heq
  dsimp only at hcur hent
  rcases hinv with hnil | hlt
  · rw [hnil] at hent
    simp at hent
  · rw [List.length_take] at hcur
    omega

/-- Witness for C3: the amended theorem applies concretely to the empty
address on a fresh panel. -/
theorem c3_witness :
    ((("" : String).data.all Char.isWhitespace = true) ∧
      (emptyHistory.entries = [] ∨ emptyHistory.cursor < emptyHistory.entries.length) ∧
      currentEntry emptyHistory ≠ some (normalizePath "")) ∧
    (currentEntry (handleNewPageLoad { pageHistory := emptyHistory, currentAddress := "/x" } "" "").comm.pageHistory =
        some (normalizePath "") ∧
      (handleNewPageLoad { pageHistory := emptyHistory, currentAddress := "/x" } "" "").comm.pageHistory ≠
        emptyHistory ∧
      (handleNewPageLoad { pageHistory := emptyHistory, currentAddress := "/x" } "" "").titles =
        [{ title := "", pathname := normalizePath "" }]) :=
  ⟨⟨by decide, Or.inl rfl, by decide⟩,
    c3_amended_empty_address_recorded { pageHistory := emptyHistory, currentAddress := "/x" } ""
      (by decide) (Or.inl rfl) (by decide)⟩

/-! ## Claim C4 -/

/-- C4: navigation is atomic with respect to the history on failure —
when resolving the host's network address fails (`none`), `setHtml`
propagates an error before any effect and `goToFile` leaves the page
history (entries and cursor) exactly as before the call, for any
`updateHistory` flag. -/
theorem c4_failed_resolve_no_history (injectable : String → Bool) (c : WebviewComm)
    (URLExt : String) (updateHistory : Bool) :
    (goToFile injectable c none URLExt updateHistory).comm.pageHistory = c.pageHistory ∧
    setHtml injectable c none URLExt updateHistory = Except.error () :=
  ⟨rfl, rfl⟩

/-! ## Claim C5 -/

/-- C5, counterexample: the claim says every recorded address and every
reported pathname begins with exactly one leading `/`, including for the
empty input. On the code, the empty input is reported and recorded as
the empty string, which has no leading separator. -/
theorem c5_counterexample :
    (handleNewPageLoad { pageHistory := emptyHistory, currentAddress := "/x" } "" "").titles =
      [{ title := "", pathname := "" }] ∧
    (handleNewPageLoad { pageHistory := emptyHistory, currentAddress := "/x" } "" "").comm.pageHistory.entries =
      [""] ∧
    ("" : String).data.head? ≠ some '/' := by
  decide

/-- C5, amended: `handleNewPageLoad` reports and records exactly
`normalizePath` of its input: a nonempty input with no leading `/` gets
exactly one prepended, while the empty string and inputs already
starting with `/` (possibly with several separators) pass through
unchanged; every history entry after the call is either an old entry or
that normalized pathname. -/
theorem c5_amended_normalization (c : WebviewComm) (s t : String) :
    (handleNewPageLoad c s t).titles = [{ title := t, pathname := normalizePath s }] ∧
    (handleNewPageLoad c s t).comm.currentAddress = normalizePath s ∧
    ((handleNewPageLoad c s t).comm.pageHistory.entries.all
      (fun e => c.pageHistory.entries.contains e || e == normalizePath s)) = true ∧
    normalizePath s = (if s = "" then s else if s.data.head? = some '/' then s else "/" ++ s) := by
  by_cases hc : currentEntry c.pageHistory = some (normalizePath s)
  · have haddr : addHistory c.pageHistory (normalizePath s) = (none, c.pageHistory) := by
      unfold addHistory
      rw [if_pos hc]
    unfold handleNewPageLoad
    dsimp only
    rw [haddr]
    dsimp only
    refine ⟨rfl, rfl, ?_, normalizePath_spec s⟩
    rw [List.all_eq_true]
    intro e he
    rw [Bool.or_eq_true]
    exact Or.inl (List.elem_eq_true_of_mem he)
  · have haddr : addHistory c.pageHistory (normalizePath s) =
        (some (actionDiff c.pageHistory
            { entries := c.pageHistory.entries.take (c.pageHistory.cursor + 1) ++ [normalizePath s],
              cursor := (c.pageHistory.entries.take (c.pageHistory.cursor + 1)).length }),
          { entries := c.pageHistory.entries.take (c.pageHistory.cursor + 1) ++ [normalizePath s],
            cursor := (c.pageHistory.entries.take (c.pageHistory.cursor + 1)).length }) := by
      unfold addHistory
      rw [if_neg hc]
    unfold handleNewPageLoad
    dsimp only
    rw [haddr]
    dsimp only
    refine ⟨rfl, rfl, ?_, normalizePath_spec s⟩
    rw [List.all_eq_true]
    intro e he
    rw [Bool.or_eq_true]
    rcases List.mem_append.1 he with hk | hp
    · exact Or.inl (List.elem_eq_true_of_mem (List.mem_of_mem_take hk))
    · rcases List.mem_singleton.1 hp with rfl
      exact Or.inr (by rw [beq_self_eq_true])

/-! ## Claim C6 -/

/-- C6: `goForwards` and `goBack` navigate — i.e. call `goToFile` with
the history flag false — exactly when the history returns a defined
address, and in every case (defined or not) they relay every NavAction
of the history's response as a `changed-history` message. -/
theorem c6_goBack_goForwards_relay (injectable : String → Bool) (c : WebviewComm)
    (host : Option ResolvedHost) :
    ((goForwards injectable c host).navCalls =
        (match (goForward c.pageHistory).1.address with
          | some p => [{ url := p, updateHistory := false : NavCall }]
          | none => [])) ∧
    ((goForwards injectable c host).posted.filter (fun m => m.command == "changed-history") =
        (goForward c.pageHistory).1.actions.map handleNavAction) ∧
    ((goBack injectable c host).navCalls =
        (match (goBackward c.pageHistory).1.address with
          | some p => [{ url := p, updateHistory := false : NavCall }]
          | none => [])) ∧
    ((goBack injectable c host).posted.filter (fun m => m.command == "changed-history") =
        (goBackward c.pageHistory).1.actions.map handleNavAction) := by
  refine ⟨?_, ?_, ?_, ?_⟩
  · unfold goForwards
    dsimp only
    cases haddr : (goForward c.pageHistory).1.address with
    | some p => exact goToFile_navCalls injectable _ host p false
    | none => rfl
  · unfold goForwards
    dsimp only
    cases haddr : (goForward c.pageHistory).1.address with
    | some p =>
      dsimp only
      rw [List.filter_append, goToFile_false_no_changed, filter_changed_map,
        List.nil_append]
    | none =>
      dsimp only
      rw [List.filter_append, filter_changed_map]
      rfl
  · unfold goBack
    dsimp only
    cases haddr : (goBackward c.pageHistory).1.address with
    | some p => exact goToFile_navCalls injectable _ host p false
    | none => rfl
  · unfold goBack
    dsimp only
    cases haddr : (goBackward c.pageHistory).1.address with
    | some p =>
      dsimp only
      rw [List.filter_append, goToFile_false_no_changed, filter_changed_map,
        List.nil_append]
    | none =>
      dsimp only
      rw [List.filter_append, filter_changed_map]
      rfl

/-! ## Claim C7 -/

/-- C7, counterexample: the claim says `recordNavigation(X); goBack();
goForward()` yields address `X` for every history state. Starting from
the empty history with `X = "/a"`, both moves are boundary no-ops and
the final `goForward` yields no address at all. -/
theorem c7_counterexample :
    (goForward (goBackward (addHistory emptyHistory "/a").2).2).1.address = none ∧
    (goForward (goBackward (addHistory emptyHistory "/a").2).2).1.address ≠ some "/a" := by
  decide

/-- C7, amended: provided the history is non-empty with a valid cursor
and `X` differs from the current entry, `recordNavigation(X); goBack();
goForward()` makes `X` the current entry, restores the exact
post-record state (entries and cursor), and the `goForward` yields
address `X`; from an empty history both moves are no-ops and `goForward`
yields no address. -/
theorem c7_amended_roundtrip (h : PageHistory) (X : String)
    (hcur : h.cursor < h.entries.length)
    (hne : currentEntry h ≠ some X) :
    currentEntry (addHistory h X).2 = some X ∧
    (goForward (goBackward (addHistory h X).2).2).2 = (addHistory h X).2 ∧
    (goForward (goBackward (addHistory h X).2).2).1.address = some X := by
  have hrec : (addHistory h X).2 =
      { entries := h.entries.take (h.cursor + 1) ++ [X],
        cursor := (h.entries.take (h.cursor + 1)).length } := by
    unfold addHistory
    rw [if_neg hne]
  have hpos : 0 < (h.entries.take (h.cursor + 1)).length := by
    rw [List.length_take]
    omega
  rw [hrec]
  exact roundtrip_core _ X hpos

/-- Witness for C7: the amended round-trip at a one-entry history and a
fresh address. -/
theorem c7_witness :
    (({ entries := ["/i"], cursor := 0 : PageHistory }).cursor <
        ({ entries := ["/i"], cursor := 0 : PageHistory }).entries.length ∧
      currentEntry { entries := ["/i"], cursor := 0 } ≠ some "/a") ∧
    (currentEntry (addHistory { entries := ["/i"], cursor := 0 } "/a").2 = some "/a" ∧
      (goForward (goBackward (addHistory { entries := ["/i"], cursor := 0 } "/a").2).2).2 =
        (addHistory { entries := ["/i"], cursor := 0 } "/a").2 ∧
      (goForward (goBackward (addHistory { entries := ["/i"], cursor := 0 } "/a").2).2).1.address =
        some "/a") :=
  ⟨⟨by decide, by decide⟩,
    c7_amended_roundtrip { entries := ["/i"], cursor := 0 } "/a" (by decide) (by decide)⟩

/-! ## Claim C8 -/

/-- C8: for every sequence of record/back/forward operations on a
history whose cursor is valid, the cursor stays within
`0 <= cursor < entries.length` whenever the entries are non-empty, a
non-empty entry list never becomes empty again, and recording any
navigation always leaves the entry list non-empty. -/
theorem c8_history_invariant (h : PageHistory) (ops : List HistoryOp)
    (hinv : h.entries ≠ [] → h.cursor < h.entries.length) :
    (0 ≤ (runOps h ops).cursor) ∧
    ((runOps h ops).entries ≠ [] → (runOps h ops).cursor < (runOps h ops).entries.length) ∧
    (h.entries ≠ [] → (runOps h ops).entries ≠ []) ∧
    (∀ a, (applyOp h (HistoryOp.record a)).entries ≠ []) := by
  have main : ((runOps h ops).entries ≠ [] →
        (runOps h ops).cursor < (runOps h ops).entries.length) ∧
      (h.entries ≠ [] → (runOps h ops).entries ≠ []) := by
    induction ops generalizing h with
    | nil => exact ⟨hinv, fun hne => hne⟩
    | cons op rest ih =>
      have step := applyOp_preserves h op hinv
      have tail := ih (applyOp h op) step.1
      exact ⟨tail.1, fun hne => tail.2 (step.2 hne)⟩
  exact ⟨Nat.zero_le _, main.1, main.2, fun a => record_nonempty h a⟩

/-- Witness for C8: the invariant holds along the concrete run
`record "/b"; back; forward` from a one-entry history. -/
theorem c8_witness :
    (({ entries := ["/a"], cursor := 0 : PageHistory }).entries ≠ [] →
      ({ entries := ["/a"], cursor := 0 : PageHistory }).cursor <
        ({ entries := ["/a"], cursor := 0 : PageHistory }).entries.length) ∧
    ((0 ≤ (runOps { entries := ["/a"], cursor := 0 }
        [HistoryOp.record "/b", HistoryOp.back, HistoryOp.forward]).cursor) ∧
      ((runOps { entries := ["/a"], cursor := 0 }
          [HistoryOp.record "/b", HistoryOp.back, HistoryOp.forward]).entries ≠ [] →
        (runOps { entries := ["/a"], cursor := 0 }
            [HistoryOp.record "/b", HistoryOp.back, HistoryOp.forward]).cursor <
          (runOps { entries := ["/a"], cursor := 0 }
              [HistoryOp.record "/b", HistoryOp.back, HistoryOp.forward]).entries.length) ∧
      (({ entries := ["/a"], cursor := 0 : PageHistory }).entries ≠ [] →
        (runOps { entries := ["/a"], cursor := 0 }
            [HistoryOp.record "/b", HistoryOp.back, HistoryOp.forward]).entries ≠ []) ∧
      (∀ a, (applyOp { entries := ["/a"], cursor := 0 } (HistoryOp.record a)).entries ≠ [])) :=
  ⟨by decide,
    c8_history_invariant { entries := ["/a"], cursor := 0 }
      [HistoryOp.record "/b", HistoryOp.back, HistoryOp.forward] (by decide)⟩

/-! ## Claim C9 -/

/-- C9: at panel creation the constructor pushes the full current
enable/disable state for both directions exactly once — the only
`changed-history` messages it posts are one DISABLE_BACK and one
DISABLE_FORWARD — and the resulting panel holds exactly the one initial
entry with both directions disabled. -/
theorem c9_initial_button_state (injectable : String → Bool) (initialFile : String)
    (host : Option ResolvedHost) :
    ((constructWebviewComm injectable initialFile host).posted.filter
        (fun m => m.command == "changed-history") =
      [handleNavAction NavEditCommands.DISABLE_BACK,
       handleNavAction NavEditCommands.DISABLE_FORWARD]) ∧
    (constructWebviewComm injectable initialFile host).comm.pageHistory.entries = [initialFile] ∧
    (constructWebviewComm injectable initialFile host).comm.pageHistory.cursor = 0 ∧
    currentCommands (constructWebviewComm injectable initialFile host).comm.pageHistory =
      [NavEditCommands.DISABLE_BACK, NavEditCommands.DISABLE_FORWARD] := by
  have hhist : (goToFile injectable { pageHistory := emptyHistory, currentAddress := "" }
      host initialFile false).comm.pageHistory = emptyHistory :=
    goToFile_false_pageHistory injectable _ host initialFile
  refine ⟨?_, ?_, ?_, ?_⟩
  · unfold constructWebviewComm
    dsimp only
    rw [List.filter_append, goToFile_false_no_changed, List.append_nil]
    rfl
  · unfold constructWebviewComm
    dsimp only
    rw [hhist]
    rfl
  · unfold constructWebviewComm
    dsimp only
    rw [hhist]
    rfl
  · unfold constructWebviewComm
    dsimp only
    rw [hhist]
    rfl

/-! ## Claim C10 -/

/-- C10: `constructAddress` returns exactly the host URI string
concatenated with the pathname after removing at most one leading `/`
before unix-path conversion and at most one more after it; in
particular a pathname with a single leading separator (its remainder
starting with neither separator kind) joins to the host string with no
duplicated separator, and no separator is ever inserted between host
and path. -/
theorem c10_constructAddress_join (URLExt host rest : String)
    (h1 : rest.data.head? ≠ some '/')
    (h2 : rest.data.head? ≠ some '\\') :
    constructAddress ConvertToUnixPath URLExt host =
      host ++ removeUpToOneLeadingSlash (ConvertToUnixPath (removeUpToOneLeadingSlash URLExt)) ∧
    constructAddress ConvertToUnixPath ("/" ++ rest) host = host ++ ConvertToUnixPath rest ∧
    (ConvertToUnixPath rest).data.head? ≠ some '/' := by
  obtain ⟨lr⟩ := rest
  have hconv : (ConvertToUnixPath { data := lr }).data.head? ≠ some '/' := by
    unfold ConvertToUnixPath
    cases lr with
    | nil => simp
    | cons ch cs =>
      simp only [ne_eq, List.head?, Option.some.injEq] at h1 h2
      simp [h1, h2]
  refine ⟨rfl, ?_, hconv⟩
  have hu1 : (if ("/" ++ String.mk lr).data.head? = some '/'
      then String.mk (("/" ++ String.mk lr).data.drop 1) else ("/" ++ String.mk lr)) =
      String.mk lr := by
    rw [if_pos (show ("/" ++ String.mk lr).data.head? = some '/' from rfl)]
    rfl
  unfold constructAddress
  dsimp only
  rw [hu1, if_neg hconv]

/-- Witness for C10: the join at a single-leading-slash pathname and a
plain remainder. -/
theorem c10_witness :
    (("foo" : String).data.head? ≠ some '/' ∧
      ("foo" : String).data.head? ≠ some '\\') ∧
    (constructAddress ConvertToUnixPath "/x" "http://h/" =
        "http://h/" ++ removeUpToOneLeadingSlash (ConvertToUnixPath (removeUpToOneLeadingSlash "/x")) ∧
      constructAddress ConvertToUnixPath ("/" ++ "foo") "http://h/" =
        "http://h/" ++ ConvertToUnixPath "foo" ∧
      (ConvertToUnixPath "foo").data.head? ≠ some '/') :=
  ⟨⟨by decide, by decide⟩,
    c10_constructAddress_join "/x" "http://h/" "foo" (by decide) (by decide)⟩

end LivePreview
